import Mathlib

/-!
Shallow embedding of the MyBAS Tracker (Kota Bharu, simulated live) core:
the time/calendar utilities, the stop-schedule index, the path interpolator
(`src/src/utils/gtfs.js`) and the per-tick trip-simulation engine
(`src/src/components/Map.jsx`, the `activeTrips` memo).

Modelling conventions:
- JavaScript numbers that are guaranteed integral (seconds since midnight)
  are `Nat`; coordinates and progress fractions are `ℚ` (the claims under
  study are exact-arithmetic statements, none depends on float rounding).
- A JS `NaN` arising from `timeToSeconds` on a malformed string is `none`
  of `Option Nat`; every JS comparison involving `NaN` is false, which the
  `betweenClosed` / `dwellCond` helpers reproduce.
- JS objects used as string-keyed tables are association lists, looked up
  with `List.lookup` (first binding wins, as in a JS object literal built
  by successive assignment).
- `haversineDistance` uses transcendental functions (`sin`, `cos`, `atan2`,
  `sqrt`); it is modelled as an abstract parameter `dist : Point → Point → ℚ`
  threaded through the interpolator and the engine.  The claims never need
  more than its value being positive on distinct inputs.
- `new Date()` (the real wall clock consulted for service-activity checks)
  becomes an explicit `JsDate` parameter: `ymd` is the `toISOString`-derived
  `YYYYMMDD` string, `day` is `getDay()` (0 = Sunday).
-/

namespace MyBas

/-- A coordinate pair `[lat, lon]`. -/
abbrev Point := ℚ × ℚ

/-- An entry of the stops table (`stops.json`): `{stopId, name, lat, lon}`. -/
structure Stop where
  stopId : String
  name : String
  lat : ℚ
  lon : ℚ
  deriving Repr, DecidableEq

/-- An entry of the routes table: `{id, shortName, longName, color, textColor}`. -/
structure Route where
  id : String
  shortName : String
  longName : String
  color : String
  textColor : String
  deriving Repr, DecidableEq

/-- A stop-time of a trip: `{stopId, arrival, departure}`, times as `"HH:MM:SS"`. -/
structure StopTime where
  stopId : String
  arrival : String
  departure : String
  deriving Repr, DecidableEq

/-- A trip of the schedule table: `{tripId, serviceId, shapeId, headsign, stops}`. -/
structure Trip where
  tripId : String
  serviceId : String
  shapeId : String
  headsign : String
  stops : List StopTime
  deriving Repr, DecidableEq

/-- A calendar entry: seven day-of-week flags and a `YYYYMMDD` date range. -/
structure CalService where
  sunday : Bool
  monday : Bool
  tuesday : Bool
  wednesday : Bool
  thursday : Bool
  friday : Bool
  saturday : Bool
  startDate : String
  endDate : String
  deriving Repr, DecidableEq

/-- The wall-clock date consulted by the service-activity checks:
`ymd` models the `toISOString`-based reformat of the date into `YYYYMMDD` and
`day` models `date.getDay()` (0 = Sunday). -/
structure JsDate where
  ymd : String
  day : Nat
  deriving Repr, DecidableEq

/-- The flattened lookup tables produced by the loader (`loadData`). -/
structure GtfsData where
  routes : List Route
  stops : List (String × Stop)
  shapes : List (String × List Point)
  schedule : List (String × List Trip)
  calendar : List (String × CalService)

/-! ## Time utility (`timeToSeconds`, gtfs.js lines 145-148) -/

/-- JS `String.prototype.split` with a one-character separator: splits the
character list at every occurrence of `c`, keeping empty fields. -/
def splitOnChar (c : Char) : List Char → List (List Char)
  | [] => [[]]
  | x :: xs =>
    if x = c then [] :: splitOnChar c xs
    else
      match splitOnChar c xs with
      | [] => [[x]]
      | y :: ys => (x :: y) :: ys

/-- The value of a run of decimal digits, most significant first. -/
def decValue (cs : List Char) : Nat :=
  cs.foldl (fun n c => n * 10 + (c.toNat - 48)) 0

/-- JS `Number(str)` restricted to the shapes that occur in a GTFS time field:
a (possibly empty) run of decimal digits evaluates to its value
(`Number("") = 0`), anything else is `NaN`, modelled as `none`. -/
def jsNumber (cs : List Char) : Option Nat :=
  if cs.all (fun c => c.isDigit) then some (decValue cs) else none

/-- `timeToSeconds(timeStr)`: split on `':'`, convert the first three fields
with `Number`, return `h*3600 + m*60 + s`.  A missing or non-numeric field
makes the JS result `NaN`, modelled as `none`. -/
def timeToSeconds (timeStr : String) : Option Nat :=
  match (splitOnChar ':' timeStr.data).map jsNumber with
  | some h :: some m :: some s :: _ => some (h * 3600 + m * 60 + s)
  | _ => none

/-! ## Calendar utility (`isServiceActive`, gtfs.js lines 130-142) -/

/-- `['sunday', ..., 'saturday'][day]` indexing of the calendar entry's
day-of-week flags; an out-of-range index reads `undefined` (falsy). -/
def dayFlag (s : CalService) : Nat → Bool
  | 0 => s.sunday
  | 1 => s.monday
  | 2 => s.tuesday
  | 3 => s.wednesday
  | 4 => s.thursday
  | 5 => s.friday
  | 6 => s.saturday
  | _ => false

/-- JS `<` on strings: lexicographic comparison of the character sequences
(UTF-16 code units; identical to code points on the ASCII data involved). -/
def jsStrLt : List Char → List Char → Bool
  | [], [] => false
  | [], _ :: _ => true
  | _ :: _, [] => false
  | x :: xs, y :: ys =>
    if x < y then true
    else if y < x then false
    else jsStrLt xs ys

/-- `isServiceActive(serviceId, calendar, date)`: absent service → false;
date string outside `[startDate, endDate]` (lexicographic) → false;
otherwise the flag of the date's weekday. -/
def isServiceActive (serviceId : String) (calendar : List (String × CalService))
    (date : JsDate) : Bool :=
  match List.lookup serviceId calendar with
  | none => false
  | some service =>
    if jsStrLt date.ymd.data service.startDate.data ∨
       jsStrLt service.endDate.data date.ymd.data then false
    else dayFlag service date.day

/-! ## Stop-schedule index (`precalculateStopSchedules`, gtfs.js lines 21-53) -/

/-- An entry pushed onto a stop's schedule list: departure time in seconds
(`NaN` as `none`), owning route, trip id, service id, headsign. -/
structure ScheduleEntry where
  time : Option Nat
  route : Route
  tripId : String
  serviceId : String
  headsign : String
  deriving Repr, DecidableEq

/-- `stopSchedules[stopId].push(entry)` on the string-keyed accumulator
object: appends to the stop's list, creating it on first use. -/
def pushEntry (k : String) (e : ScheduleEntry) :
    List (String × List ScheduleEntry) → List (String × List ScheduleEntry)
  | [] => [(k, [e])]
  | (k', l) :: rest =>
    if k' = k then (k', l ++ [e]) :: rest
    else (k', l) :: pushEntry k e rest

/-- The comparator `(a, b) => a.time - b.time`.  Entries with an unparseable
time (JS `NaN`) are keyed as 0 here; the sortedness theorem only concerns
data whose departure times parse, where this agrees with the numeric sort. -/
def entryLe (a b : ScheduleEntry) : Bool :=
  a.time.getD 0 ≤ b.time.getD 0

/-- The object pushed for one stop-time (gtfs.js lines 36-42). -/
def schedEntryOf (route : Route) (trip : Trip) (stop : StopTime) :
    ScheduleEntry :=
  ⟨timeToSeconds stop.departure, route, trip.tripId, trip.serviceId,
    trip.headsign⟩

/-- The accumulation phase of `precalculateStopSchedules`: for every route
of the schedule table that resolves in the routes list, for every trip and
every stop-time in order, push an entry onto that stop's list. -/
def buildStopSchedules (schedule : List (String × List Trip))
    (routes : List Route) : List (String × List ScheduleEntry) :=
  schedule.foldl (fun acc rtrips =>
    match routes.find? (fun r => r.id == rtrips.1) with
    | none => acc
    | some route =>
      rtrips.2.foldl (fun acc trip =>
        trip.stops.foldl (fun acc stop =>
          pushEntry stop.stopId (schedEntryOf route trip stop) acc)
          acc) acc) []

/-- `precalculateStopSchedules(schedule, routes)`: accumulate, then sort
every stop's list ascending by time.  (The JS function also receives the
calendar but does not read it.) -/
def precalculateStopSchedules (schedule : List (String × List Trip))
    (routes : List Route) : List (String × List ScheduleEntry) :=
  (buildStopSchedules schedule routes).map
    (fun kl => (kl.1, kl.2.mergeSort entryLe))

/-! ## Next-arrival query (`getNextArrival`, gtfs.js lines 56-69) -/

/-- `arrival.time > currentTime` with a possibly-`NaN` stored time:
any comparison against `NaN` is false. -/
def timeAfter (t : Option Nat) (currentTime : Nat) : Bool :=
  match t with
  | some v => currentTime < v
  | none => false

/-- `getNextArrival(stopId, currentTime, stopSchedules, calendar)`: `null`
for an unknown stop, otherwise the first entry (in list order) whose time
strictly exceeds `currentTime` and whose service is active on `now`. -/
def getNextArrival (stopId : String) (currentTime : Nat)
    (stopSchedules : List (String × List ScheduleEntry))
    (calendar : List (String × CalService)) (now : JsDate) :
    Option ScheduleEntry :=
  match List.lookup stopId stopSchedules with
  | none => none
  | some arrivals =>
    arrivals.find? (fun arrival =>
      timeAfter arrival.time currentTime &&
        isServiceActive arrival.serviceId calendar now)

/-! ## Path interpolator (gtfs.js lines 161-248) -/

/-- `d < minDesc` where `minDesc` may still be the initial `Infinity`
(modelled as `none`): everything is below `Infinity`. -/
def ltMin (d : ℚ) : Option ℚ → Bool
  | none => true
  | some m => d < m

/-- The scan loop of `findClosestPointIndex`: walk the remaining points
carrying the running index, current minimum and best index so far. -/
def fcpiAux (stop : Stop) : List Point → Nat → Option ℚ → Int → Int
  | [], _, _, idx => idx
  | p :: rest, i, minDesc, idx =>
    let d := (p.1 - stop.lat) ^ 2 + (p.2 - stop.lon) ^ 2
    if ltMin d minDesc then fcpiAux stop rest (i + 1) (some d) (i : Int)
    else fcpiAux stop rest (i + 1) minDesc idx

/-- `findClosestPointIndex(shape, stop, startIndex)`: index (from
`startIndex` on) minimising squared Euclidean distance in `(lat, lon)`
space; `-1` when the scan is empty. -/
def findClosestPointIndex (shape : List Point) (stop : Stop)
    (startIndex : Nat) : Int :=
  fcpiAux stop (shape.drop startIndex) startIndex none (-1)

/-- The segment walk of `interpolatePositionOnShape` (lines 198-212): on the
first segment whose accumulated distance reaches the target, interpolate
linearly inside it; `none` when the walk falls off the end. -/
def walkSegments (targetDist : ℚ) : List ((Point × Point) × ℚ) → ℚ → Option Point
  | [], _ => none
  | (pq, d) :: rest, currentDist =>
    if targetDist ≤ currentDist + d then
      let segmentProgress := (targetDist - currentDist) / d
      some (pq.1.1 + (pq.2.1 - pq.1.1) * segmentProgress,
            pq.1.2 + (pq.2.2 - pq.1.2) * segmentProgress)
    else walkSegments targetDist rest (currentDist + d)

/-- The resolved "from" index (step 2 of the interpolator). -/
def idxFrom (pts : List Point) (stopFrom : Stop) : Int :=
  findClosestPointIndex pts stopFrom 0

/-- The resolved raw "to" index, before the directionality clamp. -/
def idxToRaw (pts : List Point) (stopFrom stopTo : Stop) : Int :=
  findClosestPointIndex pts stopTo (idxFrom pts stopFrom).toNat

/-- The clamped "to" index: `if (idx2 < idx1) idx2 = idx1`. -/
def idxTo (pts : List Point) (stopFrom stopTo : Stop) : Int :=
  if idxToRaw pts stopFrom stopTo < idxFrom pts stopFrom then
    idxFrom pts stopFrom
  else idxToRaw pts stopFrom stopTo

/-- `shape.slice(idx1, idx2 + 1)`: the sub-sequence between the resolved
indices, inclusive.  (Both indices are non-negative whenever the shape has
at least one point, so the negative-index behaviour of `slice` is
unreachable and not modelled.) -/
def subPath (pts : List Point) (stopFrom stopTo : Stop) : List Point :=
  (pts.take ((idxTo pts stopFrom stopTo).toNat + 1)).drop
    (idxFrom pts stopFrom).toNat

/-- `interpolatePositionOnShape(shape, stopFrom, stopTo, progress)` with the
great-circle metric abstracted as `dist`.  Fallbacks: missing/short shape or
a collapsed sub-path → the "from" stop's own coordinates; a walk that falls
off the end → the sub-path's last point. -/
def interpolatePositionOnShape (dist : Point → Point → ℚ)
    (shape : Option (List Point)) (stopFrom stopTo : Stop)
    (progress : ℚ) : Point :=
  match shape with
  | none => (stopFrom.lat, stopFrom.lon)
  | some pts =>
    if pts.length < 2 then (stopFrom.lat, stopFrom.lon)
    else
      let path := subPath pts stopFrom stopTo
      if path.length < 2 then (stopFrom.lat, stopFrom.lon)
      else
        let pairs := path.zip path.tail
        let distances := pairs.map (fun pq => dist pq.1 pq.2)
        let totalDist := distances.sum
        let targetDist := totalDist * progress
        match walkSegments targetDist (pairs.zip distances) 0 with
        | some p => p
        | none => ((path.getLastD (0, 0)).1, (path.getLastD (0, 0)).2)

/-! ## Trip-simulation engine (`activeTrips`, Map.jsx lines 65-132) -/

/-- `seconds >= a && seconds <= b` where `a`, `b` may be `NaN` (`none`):
any comparison involving `NaN` is false. -/
def betweenClosed (seconds : Nat) (a b : Option Nat) : Bool :=
  match a, b with
  | some x, some y => x ≤ seconds && seconds ≤ y
  | _, _ => false

/-- `seconds >= arr && seconds < dep`, the dwelling test, with `NaN` → false. -/
def dwellCond (seconds : Nat) (arr dep : Option Nat) : Bool :=
  match arr, dep with
  | some c, some a => c ≤ seconds && seconds < a
  | _, _ => false

/-- `(seconds - t1) / (t2 - t1)`; only evaluated under `betweenClosed`,
where both times are numbers (the `none` branch is unreachable junk). -/
def jsProgress (seconds : Nat) (t1 t2 : Option Nat) : ℚ :=
  match t1, t2 with
  | some a, some b => ((seconds : ℚ) - (a : ℚ)) / ((b : ℚ) - (a : ℚ))
  | _, _ => 0

/-- The matched segment of the in-order scan: either moving between two
consecutive stop-times with a progress fraction, or dwelling at one. -/
inductive Segment where
  | moving (s1 s2 : StopTime) (progress : ℚ)
  | dwelling (s1 : StopTime)
  deriving Repr, DecidableEq

/-- The scan loop (Map.jsx lines 86-100): over consecutive stop-time pairs
`(s1, s2)` in order, first test the moving interval
`[departure(s1), arrival(s2)]`, then the dwelling interval
`[arrival(s1), departure(s1))`; first match wins. -/
def findSegment (seconds : Nat) : List StopTime → Option Segment
  | s1 :: s2 :: rest =>
    let t1 := timeToSeconds s1.departure
    let t2 := timeToSeconds s2.arrival
    if betweenClosed seconds t1 t2 then
      some (.moving s1 s2 (jsProgress seconds t1 t2))
    else if dwellCond seconds (timeToSeconds s1.arrival) t1 then
      some (.dwelling s1)
    else
      findSegment seconds (s2 :: rest)
  | _ => none

/-- A member of the active-vehicle set: the pushed object's fields that the
simulation determines (trip id, resolved route, position, status tag). -/
structure ActiveVehicle where
  tripId : String
  route : Option Route
  position : Point
  status : String
  deriving Repr, DecidableEq

/-- The per-trip body of the `activeTrips` loop: service-activity gate,
`[startSec, endSec]` window gate, segment scan, position resolution. `none`
models "nothing pushed for this trip on this tick".  (A trip with an empty
stop list would fault in JS reading `stops[0].departure`; the loader drops
such trips, and they are modelled as excluded.) -/
def simulateTrip (dist : Point → Point → ℚ) (data : GtfsData) (today : JsDate)
    (seconds : Nat) (routeId : String) (trip : Trip) : Option ActiveVehicle :=
  if !isServiceActive trip.serviceId data.calendar today then none
  else
    match trip.stops with
    | [] => none
    | s0 :: rest =>
      let firstStop := s0
      let lastStop := (s0 :: rest).getLast (List.cons_ne_nil s0 rest)
      let startSec := timeToSeconds firstStop.departure
      let endSec := timeToSeconds lastStop.arrival
      if betweenClosed seconds startSec endSec then
        match findSegment seconds trip.stops with
        | none => none
        | some (.dwelling s1) =>
          match List.lookup s1.stopId data.stops with
          | none => none
          | some stop =>
            some ⟨trip.tripId, data.routes.find? (fun r => r.id == routeId),
              (stop.lat, stop.lon), "dwelling"⟩
        | some (.moving s1 s2 progress) =>
          match List.lookup s1.stopId data.stops,
                List.lookup s2.stopId data.stops with
          | some stop1, some stop2 =>
            some ⟨trip.tripId, data.routes.find? (fun r => r.id == routeId),
              interpolatePositionOnShape dist
                (List.lookup trip.shapeId data.shapes) stop1 stop2 progress,
              "moving"⟩
          | _, _ => none
      else none

/-- The whole `activeTrips` computation for one tick: every trip of every
route of the schedule table, in order, pushing the vehicles the per-trip
body produces. -/
def activeTrips (dist : Point → Point → ℚ) (data : GtfsData) (today : JsDate)
    (seconds : Nat) : List ActiveVehicle :=
  data.schedule.foldl (fun acc rtrips =>
    rtrips.2.foldl (fun acc trip =>
      match simulateTrip dist data today seconds rtrips.1 trip with
      | some v => acc ++ [v]
      | none => acc) acc) []

/-! ## Helper lemmas on the character-level parsers -/

theorem splitOnChar_of_not_mem {c : Char} {as : List Char} (h : c ∉ as) :
    splitOnChar c as = [as] := by
  induction as with
  | nil => rfl
  | cons x xs ih =>
    have hxc : ¬ x = c := fun he => h (he ▸ List.mem_cons_self x xs)
    have hxs : c ∉ xs := fun hm => h (List.mem_cons_of_mem x hm)
    simp only [splitOnChar, if_neg hxc, ih hxs]

theorem splitOnChar_append {c : Char} {as : List Char} (h : c ∉ as)
    (rest : List Char) :
    splitOnChar c (as ++ c :: rest) = as :: splitOnChar c rest := by
  induction as with
  | nil => simp [splitOnChar]
  | cons x xs ih =>
    have hxc : ¬ x = c := fun he => h (he ▸ List.mem_cons_self x xs)
    have hxs : c ∉ xs := fun hm => h (List.mem_cons_of_mem x hm)
    simp only [List.cons_append, splitOnChar, if_neg hxc, List.append_eq, ih hxs]

theorem jsNumber_of_digits {cs : List Char} (h : ∀ ch ∈ cs, ch.isDigit) :
    jsNumber cs = some (decValue cs) := by
  unfold jsNumber
  rw [if_pos]
  exact List.all_eq_true.mpr h

theorem not_colon_mem_of_digits {cs : List Char} (h : ∀ ch ∈ cs, ch.isDigit) :
    ':' ∉ cs := fun hm => by
  have := h ':' hm
  simp [Char.isDigit] at this

/-- Evaluation of `timeToSeconds` on any string made of three digit fields
separated by colons. -/
theorem timeToSeconds_fields {hs ms ss : List Char}
    (hh : ∀ ch ∈ hs, ch.isDigit) (hm : ∀ ch ∈ ms, ch.isDigit)
    (hsd : ∀ ch ∈ ss, ch.isDigit) :
    timeToSeconds ⟨hs ++ ':' :: (ms ++ ':' :: ss)⟩
      = some (decValue hs * 3600 + decValue ms * 60 + decValue ss) := by
  unfold timeToSeconds
  have hd : (String.mk (hs ++ ':' :: (ms ++ ':' :: ss))).data
      = hs ++ ':' :: (ms ++ ':' :: ss) := rfl
  rw [hd, splitOnChar_append (not_colon_mem_of_digits hh),
    splitOnChar_append (not_colon_mem_of_digits hm),
    splitOnChar_of_not_mem (not_colon_mem_of_digits hsd)]
  simp [jsNumber_of_digits hh, jsNumber_of_digits hm, jsNumber_of_digits hsd]

/-- The canonical two-digit rendering of `n ≤ 99`. -/
def digitsOf2 (n : Nat) : List Char :=
  [Char.ofNat (48 + n / 10), Char.ofNat (48 + n % 10)]

/-- The canonical `"HH:MM:SS"` rendering with two-digit fields. -/
def hhmmss (h m s : Nat) : String :=
  ⟨digitsOf2 h ++ ':' :: (digitsOf2 m ++ ':' :: digitsOf2 s)⟩

theorem char_digit_isDigit {d : Nat} (h : d ≤ 9) :
    (Char.ofNat (48 + d)).isDigit := by
  interval_cases d <;> decide

theorem char_digit_toNat {d : Nat} (h : d ≤ 9) :
    (Char.ofNat (48 + d)).toNat = 48 + d := by
  interval_cases d <;> decide

theorem digitsOf2_digits {n : Nat} (h : n ≤ 99) :
    ∀ ch ∈ digitsOf2 n, ch.isDigit := by
  have h1 : n / 10 ≤ 9 := by omega
  have h2 : n % 10 ≤ 9 := by omega
  intro ch hch
  simp only [digitsOf2, List.mem_cons, List.not_mem_nil, or_false] at hch
  rcases hch with h' | h'
  · exact h' ▸ char_digit_isDigit h1
  · exact h' ▸ char_digit_isDigit h2

theorem digitsOf2_value {n : Nat} (h : n ≤ 99) :
    decValue (digitsOf2 n) = n := by
  have h1 : n / 10 ≤ 9 := by omega
  have h2 : n % 10 ≤ 9 := by omega
  simp only [decValue, digitsOf2, List.foldl_cons, List.foldl_nil,
    char_digit_toNat h1, char_digit_toNat h2]
  omega

/-! ## Claim C7 -/

/-- C7: `isServiceActive` returns false if the service id is absent from the
calendar table; otherwise false if the `YYYYMMDD` date is lexicographically
outside `[startDate, endDate]`, regardless of the day-of-week flags;
otherwise the entry's day-of-week flag selected by the date's weekday with
Sunday = 0. -/
theorem claimC7 (serviceId : String) (calendar : List (String × CalService))
    (date : JsDate) :
    (List.lookup serviceId calendar = none →
      isServiceActive serviceId calendar date = false) ∧
    (∀ s, List.lookup serviceId calendar = some s →
      ((jsStrLt date.ymd.data s.startDate.data = true ∨
          jsStrLt s.endDate.data date.ymd.data = true) →
        isServiceActive serviceId calendar date = false) ∧
      (jsStrLt date.ymd.data s.startDate.data = false →
        jsStrLt s.endDate.data date.ymd.data = false →
        isServiceActive serviceId calendar date = dayFlag s date.day) ∧
      (dayFlag s 0 = s.sunday ∧ dayFlag s 1 = s.monday ∧
        dayFlag s 2 = s.tuesday ∧ dayFlag s 3 = s.wednesday ∧
        dayFlag s 4 = s.thursday ∧ dayFlag s 5 = s.friday ∧
        dayFlag s 6 = s.saturday)) := by
  refine ⟨fun h => ?_, fun s h => ⟨fun hout => ?_, fun h1 h2 => ?_,
    rfl, rfl, rfl, rfl, rfl, rfl, rfl⟩⟩
  · simp [isServiceActive, h]
  · rcases hout with hout | hout <;> simp [isServiceActive, h, hout]
  · simp [isServiceActive, h, h1, h2]

def c7svc : CalService :=
  ⟨true, false, false, false, false, false, true, "20250101", "20261231"⟩

def c7date : JsDate := ⟨"20251011", 6⟩

theorem claimC7_witness :
    isServiceActive "s1" [("s1", c7svc)] c7date = dayFlag c7svc 6 :=
  ((claimC7 "s1" [("s1", c7svc)] c7date).2 c7svc (by decide)).2.1
    (by decide) (by decide)

/-! ## Claim C8 -/

/-- C8: on every valid `"HH:MM:SS"` input (any non-empty digit run for the
hours, two-digit minutes and seconds in 00..59) `timeToSeconds` returns
`H*3600 + M*60 + S`; it is injective on canonical two-digit renderings
within a day; and `"00:00:00" ↦ 0`, `"23:59:59" ↦ 86399`. -/
theorem claimC8 :
    (∀ (hs : List Char) (m s : Nat), (∀ ch ∈ hs, ch.isDigit) →
      m ≤ 59 → s ≤ 59 →
      timeToSeconds ⟨hs ++ ':' :: (digitsOf2 m ++ ':' :: digitsOf2 s)⟩
        = some (decValue hs * 3600 + m * 60 + s)) ∧
    (∀ h1 m1 s1 h2 m2 s2 : Nat, h1 ≤ 23 → m1 ≤ 59 → s1 ≤ 59 →
      h2 ≤ 23 → m2 ≤ 59 → s2 ≤ 59 →
      timeToSeconds (hhmmss h1 m1 s1) = timeToSeconds (hhmmss h2 m2 s2) →
      hhmmss h1 m1 s1 = hhmmss h2 m2 s2) ∧
    timeToSeconds "00:00:00" = some 0 ∧
    timeToSeconds "23:59:59" = some 86399 := by
  have base : ∀ (hs : List Char) (m s : Nat), (∀ ch ∈ hs, ch.isDigit) →
      m ≤ 59 → s ≤ 59 →
      timeToSeconds ⟨hs ++ ':' :: (digitsOf2 m ++ ':' :: digitsOf2 s)⟩
        = some (decValue hs * 3600 + m * 60 + s) := by
    intro hs m s hh hm hs'
    rw [timeToSeconds_fields hh (digitsOf2_digits (by omega))
      (digitsOf2_digits (by omega)), digitsOf2_value (by omega),
      digitsOf2_value (by omega)]
  refine ⟨base, fun h1 m1 s1 h2 m2 s2 hb1 hb2 hb3 hb4 hb5 hb6 heq => ?_,
    by decide, by decide⟩
  rw [hhmmss, hhmmss, base _ _ _ (digitsOf2_digits (by omega)) hb2 hb3,
    base _ _ _ (digitsOf2_digits (by omega)) hb5 hb6,
    digitsOf2_value (by omega), digitsOf2_value (by omega)] at heq
  have hv : h1 * 3600 + m1 * 60 + s1 = h2 * 3600 + m2 * 60 + s2 :=
    Option.some.inj heq
  have : h1 = h2 ∧ m1 = m2 ∧ s1 = s2 := by omega
  rw [this.1, this.2.1, this.2.2]

theorem claimC8_witness : timeToSeconds (hhmmss 8 30 15) = some 30615 := by
  have h := claimC8.1 (digitsOf2 8) 30 15 (digitsOf2_digits (by omega))
    (by omega) (by omega)
  rw [digitsOf2_value (by omega)] at h
  exact h

/-! ## Claim C3 -/

/-- On a list sorted by `key`, the first `find?` hit has minimal key among
all hits. -/
theorem find?_min_of_pairwise {α : Type} (key : α → Nat) (p : α → Bool) :
    ∀ (l : List α), l.Pairwise (fun a b => key a ≤ key b) →
    ∀ e, l.find? p = some e → ∀ e' ∈ l, p e' = true → key e ≤ key e' := by
  intro l
  induction l with
  | nil => intro _ e he; simp at he
  | cons a l ih =>
    intro hpw e he e' he' hp'
    rcases List.pairwise_cons.mp hpw with ⟨hhead, htail⟩
    by_cases hpa : p a = true
    · rw [List.find?_cons_of_pos _ hpa] at he
      cases he
      rcases List.mem_cons.mp he' with h | h
      · exact h ▸ le_refl _
      · exact hhead e' h
    · rw [List.find?_cons_of_neg _ (by simpa using hpa)] at he
      rcases List.mem_cons.mp he' with h | h
      · exact absurd (h ▸ hp') hpa
      · exact ih htail e he e' h hp'

def c3route : Route := ⟨"r1", "R1", "Route One", "#FF3B30", "#ffffff"⟩

def c3svc : CalService :=
  ⟨true, true, true, true, true, true, true, "20250101", "20261231"⟩

def c3cal : List (String × CalService) := [("svcA", c3svc)]

def c3date : JsDate := ⟨"20251011", 6⟩

def c3entry300 : ScheduleEntry := ⟨some 300, c3route, "t300", "svcA", "City"⟩

/-- An arrival whose service id is absent from the calendar: inactive. -/
def c3entry400 : ScheduleEntry := ⟨some 400, c3route, "t400", "svcX", "City"⟩

def c3entry600 : ScheduleEntry := ⟨some 600, c3route, "t600", "svcA", "City"⟩

def c3entry900 : ScheduleEntry := ⟨some 900, c3route, "t900", "svcA", "City"⟩

def c3index : List (String × List ScheduleEntry) :=
  [("S", [c3entry300, c3entry400, c3entry600, c3entry900])]

/-- C3: `getNextArrival` returns the first entry of the stop's (sorted) list
whose departure time strictly exceeds the current time and whose service is
active today, `none` when the stop is unknown or no entry qualifies; on a
stop with active-service arrivals at 300, 600, 900 (and an inactive one at
400) with current time 301 it returns the 600-second entry. -/
theorem claimC3 :
    (∀ stopId currentTime stopSchedules calendar now,
      List.lookup stopId stopSchedules = none →
      getNextArrival stopId currentTime stopSchedules calendar now = none) ∧
    (∀ stopId currentTime stopSchedules calendar now arrivals,
      List.lookup stopId stopSchedules = some arrivals →
      arrivals.Pairwise (fun a b => a.time.getD 0 ≤ b.time.getD 0) →
      (∀ e, getNextArrival stopId currentTime stopSchedules calendar now
          = some e →
        e ∈ arrivals ∧ timeAfter e.time currentTime = true ∧
        isServiceActive e.serviceId calendar now = true ∧
        ∀ e' ∈ arrivals, timeAfter e'.time currentTime = true →
          isServiceActive e'.serviceId calendar now = true →
          e.time.getD 0 ≤ e'.time.getD 0) ∧
      (getNextArrival stopId currentTime stopSchedules calendar now = none ↔
        ∀ e' ∈ arrivals, ¬(timeAfter e'.time currentTime = true ∧
          isServiceActive e'.serviceId calendar now = true))) ∧
    getNextArrival "S" 301 c3index c3cal c3date = some c3entry600 := by
  refine ⟨fun stopId t idx cal now h => by simp [getNextArrival, h],
    fun stopId t idx cal now arrivals h hpw => ⟨fun e he => ?_, ?_⟩,
    by decide⟩
  · rw [getNextArrival, h] at he
    have hmem := List.mem_of_find?_eq_some he
    have hp := List.find?_some he
    have hp12 : timeAfter e.time t = true ∧
        isServiceActive e.serviceId cal now = true := by simpa using hp
    refine ⟨hmem, hp12.1, hp12.2, fun e' he' h1 h2 => ?_⟩
    exact find?_min_of_pairwise (fun a => a.time.getD 0) _ arrivals hpw e he e'
      he' (by simp [h1, h2])
  · rw [getNextArrival, h]
    rw [List.find?_eq_none]
    constructor
    · intro hall e' he' hpair
      exact (hall e' he') (by simp [hpair.1, hpair.2])
    · intro hall e' he' hp
      have hp12 : timeAfter e'.time t = true ∧
          isServiceActive e'.serviceId cal now = true := by simpa using hp
      exact hall e' he' hp12

theorem claimC3_witness :
    getNextArrival "S0" 0 [] c3cal c3date = none :=
  claimC3.1 "S0" 0 [] c3cal c3date (by decide)

/-! ## Claim C5 -/

/-- When the directionality clamp fires, the extracted sub-sequence has at
most one point. -/
theorem subPath_short_of_clamp {pts : List Point} {sf st : Stop}
    (h : idxToRaw pts sf st < idxFrom pts sf) :
    (subPath pts sf st).length < 2 := by
  unfold subPath idxTo
  rw [if_pos h]
  simp only [List.length_drop, List.length_take]
  omega

/-- C5: `interpolatePositionOnShape` returns the "from" stop's own
coordinates whenever the shape is missing or has fewer than 2 points, and
whenever the extracted sub-sequence between the resolved indices collapses
to a single point — including the clamped case where the resolved "to"
index is less than the "from" index. -/
theorem claimC5 (dist : Point → Point → ℚ) (shape : Option (List Point))
    (sf st : Stop) (progress : ℚ)
    (h : shape = none ∨ ∃ pts, shape = some pts ∧
      (pts.length < 2 ∨ (subPath pts sf st).length < 2 ∨
        idxToRaw pts sf st < idxFrom pts sf)) :
    interpolatePositionOnShape dist shape sf st progress
      = (sf.lat, sf.lon) := by
  rcases h with h | ⟨pts, hsh, hcase⟩
  · rw [h]; rfl
  · rw [hsh]
    have hpath : pts.length < 2 ∨ (subPath pts sf st).length < 2 := by
      rcases hcase with h' | h' | h'
      · exact Or.inl h'
      · exact Or.inr h'
      · exact Or.inr (subPath_short_of_clamp h')
    unfold interpolatePositionOnShape
    by_cases h2 : pts.length < 2
    · simp [h2]
    · rcases hpath with h' | h'
      · exact absurd h' h2
      · simp [h2, h']

def c5stop : Stop := ⟨"A", "Stop A", 6, 102⟩

/-- A concrete stand-in for the abstract great-circle metric. -/
def qdist1 : Point → Point → ℚ := fun _ _ => 1

theorem claimC5_witness :
    interpolatePositionOnShape qdist1 none c5stop c5stop 0
      = (c5stop.lat, c5stop.lon) :=
  claimC5 qdist1 none c5stop c5stop 0 (Or.inl rfl)

/-! ## Claim C6 -/

/-- Squared Euclidean distance of distinct rational points is positive. -/
theorem sq_dist_pos {a b : Point} (h : a ≠ b) :
    0 < (a.1 - b.1) ^ 2 + (a.2 - b.2) ^ 2 := by
  rcases lt_or_eq_of_le (add_nonneg (sq_nonneg (a.1 - b.1))
    (sq_nonneg (a.2 - b.2))) with hlt | heq
  · exact hlt
  · exfalso
    have h1 : (a.1 - b.1) ^ 2 = 0 := by
      nlinarith [sq_nonneg (a.1 - b.1), sq_nonneg (a.2 - b.2)]
    have h2 : (a.2 - b.2) ^ 2 = 0 := by
      nlinarith [sq_nonneg (a.1 - b.1), sq_nonneg (a.2 - b.2)]
    have e1 : a.1 = b.1 := by
      have := (pow_eq_zero_iff (by norm_num : (2:ℕ) ≠ 0)).mp h1
      linarith [sub_eq_zero.mp this]
    have e2 : a.2 = b.2 := by
      have := (pow_eq_zero_iff (by norm_num : (2:ℕ) ≠ 0)).mp h2
      linarith [sub_eq_zero.mp this]
    exact h (Prod.ext e1 e2)

/-- C6: on the 2-point shape `[A, B]` made of the two distinct stop
coordinates, with a positive great-circle distance between them, progress
`1/2` interpolates to the coordinate midpoint of `A` and `B`. -/
theorem claimC6 (dist : Point → Point → ℚ) (sf st : Stop)
    (hne : ((sf.lat, sf.lon) : Point) ≠ (st.lat, st.lon))
    (hd : 0 < dist (sf.lat, sf.lon) (st.lat, st.lon)) :
    interpolatePositionOnShape dist
      (some [(sf.lat, sf.lon), (st.lat, st.lon)]) sf st (1/2)
      = ((sf.lat + st.lat) / 2, (sf.lon + st.lon) / 2) := by
  have hD : 0 < (st.lat - sf.lat) ^ 2 + (st.lon - sf.lon) ^ 2 := by
    have := sq_dist_pos
      (show ((st.lat, st.lon) : Point) ≠ (sf.lat, sf.lon) from
        fun e => hne e.symm)
    simpa using this
  have hIdx1 : idxFrom [((sf.lat, sf.lon) : Point), (st.lat, st.lon)] sf = 0 := by
    unfold idxFrom findClosestPointIndex
    simp only [List.drop_zero, fcpiAux, ltMin]
    rw [if_pos trivial, if_neg]
    · rfl
    · simp only [sub_self, decide_eq_true_eq]
      norm_num
      exact hD.le
  have hIdx2 : idxToRaw [((sf.lat, sf.lon) : Point), (st.lat, st.lon)] sf st
      = 1 := by
    unfold idxToRaw findClosestPointIndex
    rw [hIdx1]
    simp only [Int.toNat_zero, List.drop_zero, fcpiAux, ltMin]
    have hcond : decide ((st.lat - st.lat) ^ 2 + (st.lon - st.lon) ^ 2
        < (sf.lat - st.lat) ^ 2 + (sf.lon - st.lon) ^ 2) = true := by
      rw [decide_eq_true_eq]
      nlinarith [hD]
    rw [if_pos trivial, if_pos hcond]
    rfl
  have hSub : subPath [((sf.lat, sf.lon) : Point), (st.lat, st.lon)] sf st
      = [((sf.lat, sf.lon) : Point), (st.lat, st.lon)] := by
    unfold subPath idxTo
    rw [hIdx1, hIdx2]
    norm_num
  simp only [interpolatePositionOnShape, hSub]
  norm_num
  simp only [walkSegments]
  rw [if_pos (show dist (sf.lat, sf.lon) (st.lat, st.lon) * (1 / 2)
      ≤ 0 + dist (sf.lat, sf.lon) (st.lat, st.lon) from by nlinarith [hd])]
  have hdne : dist (sf.lat, sf.lon) (st.lat, st.lon) ≠ 0 := ne_of_gt hd
  norm_num
  constructor <;> field_simp <;> ring

def c6from : Stop := ⟨"A", "Stop A", 0, 0⟩

def c6to : Stop := ⟨"B", "Stop B", 2, 2⟩

theorem claimC6_witness :
    interpolatePositionOnShape qdist1 (some [(0, 0), (2, 2)]) c6from c6to (1/2)
      = (1, 1) := by
  have h := claimC6 qdist1 c6from c6to (by decide) (by norm_num [qdist1])
  norm_num [c6from, c6to] at h
  exact h

/-! ## Engine scan lemmas -/

/-- The parsed time lies strictly below `t` (vacuously for `NaN`). -/
def beforeT (o : Option Nat) (t : Nat) : Prop := ∀ v, o = some v → v < t

theorem beforeT_of_ex {o : Option Nat} {t : Nat}
    (h : ∃ v, o = some v ∧ v < t) : beforeT o t := by
  rcases h with ⟨w, hw, hlt⟩
  intro v hv
  rw [hw] at hv
  cases Option.some.inj hv
  exact hlt

theorem betweenClosed_false_of_hi {t : Nat} {a b : Option Nat}
    (h : beforeT b t) : betweenClosed t a b = false := by
  cases a with
  | none => cases b <;> rfl
  | some x =>
    cases b with
    | none => rfl
    | some y =>
      have := h y rfl
      simp [betweenClosed]
      omega

theorem dwellCond_false_of_dep {t : Nat} {arr dep : Option Nat}
    (h : beforeT dep t) : dwellCond t arr dep = false := by
  cases arr with
  | none => cases dep <;> rfl
  | some c =>
    cases dep with
    | none => rfl
    | some a =>
      have := h a rfl
      simp [dwellCond]
      omega

/-- Pairs whose times all lie strictly before `t` are skipped by the scan. -/
theorem findSegment_skip (t : Nat) (s1 : StopTime) (rest : List StopTime) :
    ∀ (pre : List StopTime),
    (∀ x ∈ pre, beforeT (timeToSeconds x.arrival) t ∧
      beforeT (timeToSeconds x.departure) t) →
    beforeT (timeToSeconds s1.arrival) t →
    findSegment t (pre ++ s1 :: rest) = findSegment t (s1 :: rest) := by
  intro pre
  induction pre with
  | nil => intro _ _; rfl
  | cons p pre' ih =>
    intro hpre ha1
    have hp := hpre p (List.mem_cons_self p pre')
    have hpre' : ∀ x ∈ pre', beforeT (timeToSeconds x.arrival) t ∧
        beforeT (timeToSeconds x.departure) t :=
      fun x hx => hpre x (List.mem_cons_of_mem p hx)
    cases pre' with
    | nil =>
      simp only [List.nil_append, List.cons_append, findSegment,
        betweenClosed_false_of_hi ha1, dwellCond_false_of_dep hp.2]
      simp
    | cons q pre'' =>
      have hq := hpre' q (List.mem_cons_self q pre'')
      have hqarr : beforeT (timeToSeconds q.arrival) t := fun v hv => by
        have := hq.1 v hv
        omega
      simp only [List.cons_append, findSegment,
        betweenClosed_false_of_hi hqarr, dwellCond_false_of_dep hp.2]
      simp only [Bool.false_eq_true, if_false]
      exact ih hpre' ha1

theorem findSegment_moving_head {t d1 a2 : Nat} {s1 s2 : StopTime}
    (rest : List StopTime)
    (hd1 : timeToSeconds s1.departure = some d1)
    (ha2 : timeToSeconds s2.arrival = some a2)
    (h1 : d1 ≤ t) (h2 : t ≤ a2) :
    findSegment t (s1 :: s2 :: rest)
      = some (.moving s1 s2 (((t : ℚ) - (d1 : ℚ)) / ((a2 : ℚ) - (d1 : ℚ)))) := by
  simp [findSegment, betweenClosed, jsProgress, hd1, ha2, h1, h2]

theorem findSegment_dwelling_head {t a1 d1 : Nat} {s1 : StopTime}
    (s2 : StopTime) (rest : List StopTime)
    (ha1 : timeToSeconds s1.arrival = some a1)
    (hd1 : timeToSeconds s1.departure = some d1)
    (h1 : a1 ≤ t) (h2 : t < d1) :
    findSegment t (s1 :: s2 :: rest) = some (.dwelling s1) := by
  have hm : betweenClosed t (some d1) (timeToSeconds s2.arrival) = false := by
    cases timeToSeconds s2.arrival with
    | none => rfl
    | some y =>
      simp only [betweenClosed, Bool.and_eq_false_iff, decide_eq_false_iff_not]
      left
      omega
  simp [findSegment, hm, dwellCond, ha1, hd1, h1, h2]

/-- Unfolding of the per-trip body once the service gate and the window gate
are known to pass. -/
theorem simulateTrip_eq_segcase (dist : Point → Point → ℚ) (data : GtfsData)
    (today : JsDate) (t : Nat) (routeId : String) (trip : Trip)
    (s0 : StopTime) (rest : List StopTime)
    (hstops : trip.stops = s0 :: rest)
    (hserv : isServiceActive trip.serviceId data.calendar today = true)
    (hwin : betweenClosed t (timeToSeconds s0.departure)
      (timeToSeconds ((s0 :: rest).getLast (List.cons_ne_nil s0 rest)).arrival)
        = true) :
    simulateTrip dist data today t routeId trip =
      match findSegment t (s0 :: rest) with
      | none => none
      | some (.dwelling s1) =>
        (match List.lookup s1.stopId data.stops with
          | none => none
          | some stop =>
            some ⟨trip.tripId, data.routes.find? (fun r => r.id == routeId),
              (stop.lat, stop.lon), "dwelling"⟩)
      | some (.moving s1 s2 progress) =>
        (match List.lookup s1.stopId data.stops,
              List.lookup s2.stopId data.stops with
          | some stop1, some stop2 =>
            some ⟨trip.tripId, data.routes.find? (fun r => r.id == routeId),
              interpolatePositionOnShape dist
                (List.lookup trip.shapeId data.shapes) stop1 stop2 progress,
              "moving"⟩
          | _, _ => none) := by
  unfold simulateTrip
  rw [hserv, hstops]
  simp only [Bool.not_true, Bool.false_eq_true, if_false, hwin, if_true]

/-! ## Claim C4 -/

def c4svc : CalService :=
  ⟨true, true, true, true, true, true, true, "20250101", "20261231"⟩

def c4today : JsDate := ⟨"20251011", 6⟩

def c4stopA : Stop := ⟨"A", "Stop A", 6, 102⟩

def c4stopB : Stop := ⟨"B", "Stop B", 7, 103⟩

def c4route : Route := ⟨"r1", "R1", "Route One", "#FF3B30", "#ffffff"⟩

/-- A trip with first-stop departure 28800 (08:00:00) and last-stop arrival
29400 (08:10:00). -/
def c4trip : Trip :=
  ⟨"t1", "svc1", "sh1", "City",
    [⟨"A", "08:00:00", "08:00:00"⟩, ⟨"B", "08:10:00", "08:10:00"⟩]⟩

def c4data : GtfsData :=
  ⟨[c4route], [("A", c4stopA), ("B", c4stopB)], [], [("r1", [c4trip])],
    [("svc1", c4svc)]⟩

/-- C4: a service-active trip is excluded whenever the simulated time lies
outside `[firstStopDeparture, lastStopArrival]`; the concrete trip with
window `[28800, 29400]` yields no active vehicle at 28500 and at 29700, and
exactly one with status moving-or-dwelling at 29000. -/
theorem claimC4 :
    (∀ (dist : Point → Point → ℚ) (data : GtfsData) (today : JsDate)
      (routeId : String) (trip : Trip) (t : Nat) (s0 : StopTime)
      (rest : List StopTime) (st en : Nat),
      trip.stops = s0 :: rest →
      isServiceActive trip.serviceId data.calendar today = true →
      timeToSeconds s0.departure = some st →
      timeToSeconds ((s0 :: rest).getLast (List.cons_ne_nil s0 rest)).arrival
        = some en →
      (t < st ∨ en < t) →
      simulateTrip dist data today t routeId trip = none) ∧
    (∀ dist, activeTrips dist c4data c4today 28500 = []) ∧
    (∀ dist, activeTrips dist c4data c4today 29700 = []) ∧
    (∀ dist, ∃ v, activeTrips dist c4data c4today 29000 = [v] ∧
      (v.status = "moving" ∨ v.status = "dwelling")) := by
  refine ⟨fun dist data today routeId trip t s0 rest st en hstops hserv hst
      hen hout => ?_,
    fun dist => rfl, fun dist => rfl,
    fun dist => ⟨⟨"t1", some c4route, (6, 102), "moving"⟩, rfl, Or.inl rfl⟩⟩
  unfold simulateTrip
  rw [hserv, hstops]
  simp only [Bool.not_true, Bool.false_eq_true, if_false]
  have hwin : betweenClosed t (timeToSeconds s0.departure)
      (timeToSeconds ((s0 :: rest).getLast (List.cons_ne_nil s0 rest)).arrival)
        = false := by
    rw [hst, hen]
    simp only [betweenClosed, Bool.and_eq_false_iff, decide_eq_false_iff_not]
    omega
  rw [hwin]
  simp

theorem claimC4_witness :
    simulateTrip qdist1 c4data c4today 28500 "r1" c4trip = none :=
  claimC4.1 qdist1 c4data c4today "r1" c4trip 28500
    ⟨"A", "08:00:00", "08:00:00"⟩ [⟨"B", "08:10:00", "08:10:00"⟩]
    28800 29400 rfl (by decide) (by decide) (by decide) (by decide)

/-! ## Claim C9 -/

/-- C9: when the scan matches a moving segment but either endpoint stop is
missing from the stops table, the trip is silently excluded from the
active-vehicle set for the tick — no entry with an unresolved position is
produced. -/
theorem claimC9 (dist : Point → Point → ℚ) (data : GtfsData) (today : JsDate)
    (t : Nat) (routeId : String) (trip : Trip) (s1 s2 : StopTime) (p : ℚ)
    (hserv : isServiceActive trip.serviceId data.calendar today = true)
    (hseg : findSegment t trip.stops = some (.moving s1 s2 p))
    (hmiss : List.lookup s1.stopId data.stops = none ∨
      List.lookup s2.stopId data.stops = none) :
    simulateTrip dist data today t routeId trip = none := by
  cases hstops : trip.stops with
  | nil =>
    unfold simulateTrip
    rw [hserv, hstops]
    simp
  | cons s0 rest =>
    rw [hstops] at hseg
    unfold simulateTrip
    rw [hserv, hstops]
    simp only [Bool.not_true, Bool.false_eq_true, if_false]
    cases hwin : betweenClosed t (timeToSeconds s0.departure)
      (timeToSeconds ((s0 :: rest).getLast
        (List.cons_ne_nil s0 rest)).arrival) with
    | false =>
      simp only [ite_eq_right_iff]
      intro hc
      exact Bool.noConfusion hc
    | true =>
      rw [if_pos rfl, hseg]
      rcases hmiss with h | h
      · cases h2 : List.lookup s2.stopId data.stops <;> simp [h, h2]
      · cases h1 : List.lookup s1.stopId data.stops <;> simp [h, h1]

def c9svc : CalService :=
  ⟨true, true, true, true, true, true, true, "20250101", "20261231"⟩

def c9today : JsDate := ⟨"20251011", 6⟩

def c9stopA : Stop := ⟨"A", "Stop A", 6, 102⟩

def c9route : Route := ⟨"r1", "R1", "Route One", "#FF3B30", "#ffffff"⟩

def c9trip : Trip :=
  ⟨"t1", "svc1", "sh1", "City",
    [⟨"A", "08:00:00", "08:00:00"⟩, ⟨"B", "08:10:00", "08:10:00"⟩]⟩

/-- A stops table in which the trip's second stop `"B"` does not resolve. -/
def c9data : GtfsData :=
  ⟨[c9route], [("A", c9stopA)], [], [("r1", [c9trip])], [("svc1", c9svc)]⟩

theorem claimC9_witness :
    simulateTrip qdist1 c9data c9today 29000 "r1" c9trip = none :=
  claimC9 qdist1 c9data c9today 29000 "r1" c9trip
    ⟨"A", "08:00:00", "08:00:00"⟩ ⟨"B", "08:10:00", "08:10:00"⟩
    (jsProgress 29000 (timeToSeconds "08:00:00") (timeToSeconds "08:10:00"))
    (by decide) (by rfl) (Or.inr (by decide))

/-! ## Claim C10 -/

/-- C10: at simulated time exactly `arrival(i+1)` of a consecutive pair
whose later stop has a dwell (`arrival(i+1) < departure(i+1)`), the in-order
scan matches the moving interval of pair `(i, i+1)` with progress fraction 1
— never the dwelling test of stop `i+1` — and the engine then reports the
trip with status `"moving"` when both stops resolve. -/
theorem claimC10 (dist : Point → Point → ℚ) (data : GtfsData) (today : JsDate)
    (routeId : String) (trip : Trip) (pre post : List StopTime)
    (s1 s2 : StopTime) (a1 d1 a2 d2 : Nat)
    (hstops : trip.stops = pre ++ s1 :: s2 :: post)
    (ha1 : timeToSeconds s1.arrival = some a1)
    (hd1 : timeToSeconds s1.departure = some d1)
    (ha2 : timeToSeconds s2.arrival = some a2)
    (hd2 : timeToSeconds s2.departure = some d2)
    (hord : a1 ≤ d1) (hmove : d1 < a2) (hdwell : a2 < d2)
    (hpre : ∀ x ∈ pre, (∃ v, timeToSeconds x.arrival = some v ∧ v < a2) ∧
      (∃ v, timeToSeconds x.departure = some v ∧ v < a2)) :
    findSegment a2 trip.stops = some (.moving s1 s2 1) ∧
    (∀ stop1 stop2 s0 rest,
      trip.stops = s0 :: rest →
      isServiceActive trip.serviceId data.calendar today = true →
      betweenClosed a2 (timeToSeconds s0.departure)
        (timeToSeconds ((s0 :: rest).getLast
          (List.cons_ne_nil s0 rest)).arrival) = true →
      List.lookup s1.stopId data.stops = some stop1 →
      List.lookup s2.stopId data.stops = some stop2 →
      simulateTrip dist data today a2 routeId trip
        = some ⟨trip.tripId, data.routes.find? (fun r => r.id == routeId),
            interpolatePositionOnShape dist
              (List.lookup trip.shapeId data.shapes) stop1 stop2 1,
            "moving"⟩) := by
  have hseg : findSegment a2 trip.stops = some (.moving s1 s2 1) := by
    rw [hstops]
    rw [findSegment_skip a2 s1 (s2 :: post) pre
      (fun x hx => ⟨beforeT_of_ex (hpre x hx).1, beforeT_of_ex (hpre x hx).2⟩)
      (beforeT_of_ex ⟨a1, ha1, by omega⟩)]
    rw [findSegment_moving_head post hd1 ha2 (le_of_lt hmove) (le_refl a2)]
    have hne : ((a2 : ℚ) - (d1 : ℚ)) ≠ 0 :=
      sub_ne_zero.mpr (by exact_mod_cast hmove.ne')
    rw [div_self hne]
  refine ⟨hseg, fun stop1 stop2 s0 rest hsr hserv hwin h1 h2 => ?_⟩
  rw [simulateTrip_eq_segcase dist data today a2 routeId trip s0 rest hsr
    hserv hwin, ← hsr, hseg]
  simp [h1, h2]

def c10svc : CalService :=
  ⟨true, true, true, true, true, true, true, "20250101", "20261231"⟩

def c10today : JsDate := ⟨"20251011", 6⟩

/-- Three stops; the middle one dwells from 08:10:00 to 08:15:00. -/
def c10s0 : StopTime := ⟨"A", "08:00:00", "08:00:00"⟩

def c10s1 : StopTime := ⟨"B", "08:10:00", "08:15:00"⟩

def c10s2 : StopTime := ⟨"C", "08:20:00", "08:20:00"⟩

def c10trip : Trip := ⟨"t1", "svc1", "sh1", "City", [c10s0, c10s1, c10s2]⟩

def c10data : GtfsData :=
  ⟨[⟨"r1", "R1", "Route One", "#FF3B30", "#ffffff"⟩],
    [("A", ⟨"A", "Stop A", 6, 102⟩), ("B", ⟨"B", "Stop B", 7, 103⟩),
      ("C", ⟨"C", "Stop C", 8, 104⟩)],
    [], [("r1", [c10trip])], [("svc1", c10svc)]⟩

theorem claimC10_witness :
    findSegment 29400 c10trip.stops = some (.moving c10s0 c10s1 1) :=
  (claimC10 qdist1 c10data c10today "r1" c10trip [] [c10s2] c10s0 c10s1
    28800 28800 29400 29700 rfl (by decide) (by decide) (by decide)
    (by decide) (by decide) (by decide) (by decide)
    (fun x hx => absurd hx (List.not_mem_nil x))).1

/-! ## Claim C1 -/

def c1svc : CalService :=
  ⟨true, true, true, true, true, true, true, "20250101", "20261231"⟩

def c1today : JsDate := ⟨"20251011", 6⟩

def c1route : Route := ⟨"r1", "R1", "Route One", "#FF3B30", "#ffffff"⟩

/-- First stop with a dwell interval `[28800, 29100)`. -/
def c1s0 : StopTime := ⟨"A", "08:00:00", "08:05:00"⟩

def c1s1 : StopTime := ⟨"B", "08:10:00", "08:10:00"⟩

def c1stopA : Stop := ⟨"A", "Stop A", 6, 102⟩

def c1trip : Trip := ⟨"t1", "svc1", "sh1", "City", [c1s0, c1s1]⟩

def c1data : GtfsData :=
  ⟨[c1route], [("A", c1stopA), ("B", ⟨"B", "Stop B", 7, 103⟩)], [],
    [("r1", [c1trip])], [("svc1", c1svc)]⟩

/-- Three stops; the intermediate stop `B` (coordinates `(7, 103)`) dwells
over `[29400, 29700)`. -/
def c1bs0 : StopTime := ⟨"A", "08:00:00", "08:00:00"⟩

def c1bs1 : StopTime := ⟨"B", "08:10:00", "08:15:00"⟩

def c1bs2 : StopTime := ⟨"C", "08:20:00", "08:20:00"⟩

def c1btrip : Trip := ⟨"t1", "svc1", "sh1", "City", [c1bs0, c1bs1, c1bs2]⟩

def c1bstopB : Stop := ⟨"B", "Stop B", 7, 103⟩

def c1bdata : GtfsData :=
  ⟨[c1route], [("A", c1stopA), ("B", c1bstopB),
      ("C", ⟨"C", "Stop C", 8, 104⟩)], [],
    [("r1", [c1btrip])], [("svc1", c1svc)]⟩

/-- C1 as stated is false on the code, at two boundary points.
(i) First stop: the trip `c1trip` is service-active, its stops resolve, and
`28900` lies in `[arrival(0), departure(0)) = [28800, 29100)`, yet the
engine excludes the trip (its window gate requires
`t ≥ departure(first stop)`), so no dwelling vehicle is produced.
(ii) At `t` exactly `arrival(i)` of an intermediate stop `i` (here 29400,
stop `B` of `c1btrip`), the engine reports status `"moving"` at the
previous stop's coordinates `(6, 102)`, not `"dwelling"` at stop `B`'s
coordinates `(7, 103)`. -/
theorem claimC1_counterexample :
    (isServiceActive c1trip.serviceId c1data.calendar c1today = true ∧
      List.lookup "A" c1data.stops = some c1stopA ∧
      timeToSeconds c1s0.arrival = some 28800 ∧
      timeToSeconds c1s0.departure = some 29100 ∧
      28800 ≤ 28900 ∧ 28900 < 29100 ∧
      simulateTrip qdist1 c1data c1today 28900 "r1" c1trip = none ∧
      activeTrips qdist1 c1data c1today 28900 = []) ∧
    (isServiceActive c1btrip.serviceId c1bdata.calendar c1today = true ∧
      List.lookup "B" c1bdata.stops = some c1bstopB ∧
      timeToSeconds c1bs1.arrival = some 29400 ∧
      timeToSeconds c1bs1.departure = some 29700 ∧
      simulateTrip qdist1 c1bdata c1today 29400 "r1" c1btrip
        = some ⟨"t1", some c1route, (6, 102), "moving"⟩) :=
  ⟨⟨by decide, by decide, by decide, by decide, by decide, by decide,
    by rfl, by rfl⟩,
    ⟨by decide, by decide, by decide, by decide, by rfl⟩⟩

/-- C1 (amended): dwelling is reported only at intermediate stops `i`
(there is at least one earlier and one later stop-time), and only strictly
inside the dwell window `(arrival(i), departure(i))`: there, a service-active
trip whose stop resolves and whose window gate passes is included with
status `"dwelling"` at stop `i`'s coordinates.  The first stop's dwell
interval lies outside the engine's `[departure(first), arrival(last)]`
window, and at `t = arrival(i)` exactly the moving branch of the previous
pair wins (see the counterexample). -/
theorem claimC1_amended (dist : Point → Point → ℚ) (data : GtfsData)
    (today : JsDate) (routeId : String) (trip : Trip)
    (pre post : List StopTime) (s1 s2 : StopTime) (a1 d1 t : Nat)
    (stop1 : Stop)
    (hstops : trip.stops = pre ++ s1 :: s2 :: post)
    (hpre_ne : pre ≠ [])
    (ha1 : timeToSeconds s1.arrival = some a1)
    (hd1 : timeToSeconds s1.departure = some d1)
    (hlo : a1 < t) (hhi : t < d1)
    (hpre : ∀ x ∈ pre, (∃ v, timeToSeconds x.arrival = some v ∧ v < t) ∧
      (∃ v, timeToSeconds x.departure = some v ∧ v < t))
    (hserv : isServiceActive trip.serviceId data.calendar today = true)
    (hstop : List.lookup s1.stopId data.stops = some stop1) :
    ∀ s0 rest, trip.stops = s0 :: rest →
      betweenClosed t (timeToSeconds s0.departure)
        (timeToSeconds ((s0 :: rest).getLast
          (List.cons_ne_nil s0 rest)).arrival) = true →
      simulateTrip dist data today t routeId trip
        = some ⟨trip.tripId, data.routes.find? (fun r => r.id == routeId),
            (stop1.lat, stop1.lon), "dwelling"⟩ := by
  intro s0 rest hsr hwin
  have hseg : findSegment t trip.stops = some (.dwelling s1) := by
    rw [hstops]
    rw [findSegment_skip t s1 (s2 :: post) pre
      (fun x hx => ⟨beforeT_of_ex (hpre x hx).1, beforeT_of_ex (hpre x hx).2⟩)
      (beforeT_of_ex ⟨a1, ha1, hlo⟩)]
    exact findSegment_dwelling_head s2 post ha1 hd1 (le_of_lt hlo) hhi
  rw [simulateTrip_eq_segcase dist data today t routeId trip s0 rest hsr
    hserv hwin, ← hsr, hseg]
  simp [hstop]

theorem claimC1_witness :
    simulateTrip qdist1 c1bdata c1today 29500 "r1" c1btrip
      = some ⟨"t1", some c1route, (7, 103), "dwelling"⟩ :=
  claimC1_amended qdist1 c1bdata c1today "r1" c1btrip [c1bs0] []
    c1bs1 c1bs2 29400 29700 29500 c1bstopB rfl (by decide) (by decide)
    (by decide) (by decide) (by decide)
    (fun x hx => by
      cases List.mem_singleton.mp hx
      exact ⟨⟨28800, by decide, by decide⟩, ⟨28800, by decide, by decide⟩⟩)
    (by decide) (by decide) c1bs0 [c1bs1, c1bs2] rfl (by decide)

/-! ## Claim C2 -/

/-- Entry `e` occurs on stop `k`'s list in accumulator `m`. -/
def entryIn (m : List (String × List ScheduleEntry)) (k : String)
    (e : ScheduleEntry) : Prop :=
  ∃ l, List.lookup k m = some l ∧ e ∈ l

theorem lookup_cons_self {β : Type} {k : String} {v : β}
    {rest : List (String × β)} : List.lookup k ((k, v) :: rest) = some v := by
  simp [List.lookup_cons]

theorem lookup_cons_ne {β : Type} {k' k : String} {v : β}
    {rest : List (String × β)} (h : k' ≠ k) :
    List.lookup k' ((k, v) :: rest) = List.lookup k' rest := by
  have hb : (k' == k) = false := beq_eq_false_iff_ne.mpr h
  simp [List.lookup_cons, hb]

theorem entryIn_push_self (m : List (String × List ScheduleEntry))
    (k : String) (e : ScheduleEntry) : entryIn (pushEntry k e m) k e := by
  induction m with
  | nil =>
    exact ⟨[e], lookup_cons_self, List.mem_singleton_self e⟩
  | cons kl rest ih =>
    obtain ⟨k'', l⟩ := kl
    by_cases h : k'' = k
    · subst h
      refine ⟨l ++ [e], ?_, by simp⟩
      simp only [pushEntry, eq_self_iff_true, if_true]
      exact lookup_cons_self
    · rcases ih with ⟨l', hl', he'⟩
      refine ⟨l', ?_, he'⟩
      simp only [pushEntry, if_neg h]
      rw [lookup_cons_ne (fun he => h he.symm)]
      exact hl'

theorem entryIn_push_mono {m : List (String × List ScheduleEntry)}
    {k' : String} {e' : ScheduleEntry} (k : String) (e : ScheduleEntry)
    (hin : entryIn m k' e') : entryIn (pushEntry k e m) k' e' := by
  induction m with
  | nil =>
    rcases hin with ⟨l', hl', _⟩
    simp [List.lookup] at hl'
  | cons kl rest ih =>
    obtain ⟨k'', l⟩ := kl
    rcases hin with ⟨l', hl', he'⟩
    by_cases h : k'' = k
    · subst h
      by_cases hk : k' = k''
      · subst hk
        rw [lookup_cons_self] at hl'
        cases Option.some.inj hl'
        refine ⟨l ++ [e], ?_, List.mem_append_left _ he'⟩
        simp only [pushEntry, eq_self_iff_true, if_true]
        exact lookup_cons_self
      · rw [lookup_cons_ne hk] at hl'
        refine ⟨l', ?_, he'⟩
        simp only [pushEntry, eq_self_iff_true, if_true]
        rw [lookup_cons_ne hk]
        exact hl'
    · by_cases hk : k' = k''
      · subst hk
        rw [lookup_cons_self] at hl'
        cases Option.some.inj hl'
        refine ⟨l, ?_, he'⟩
        simp only [pushEntry, if_neg h]
        exact lookup_cons_self
      · rw [lookup_cons_ne hk] at hl'
        rcases ih ⟨l', hl', he'⟩ with ⟨l2, hl2, he2⟩
        refine ⟨l2, ?_, he2⟩
        simp only [pushEntry, if_neg h]
        rw [lookup_cons_ne hk]
        exact hl2

/-- Generic preservation of a predicate along a left fold. -/
theorem foldl_pres {β : Type} (Q : List (String × List ScheduleEntry) → Prop)
    (f : List (String × List ScheduleEntry) → β →
      List (String × List ScheduleEntry)) :
    ∀ (l : List β) (acc : List (String × List ScheduleEntry)),
    (∀ acc' b, b ∈ l → Q acc' → Q (f acc' b)) → Q acc → Q (l.foldl f acc) := by
  intro l
  induction l with
  | nil => intro acc _ hacc; exact hacc
  | cons b bs ih =>
    intro acc hstep hacc
    simp only [List.foldl_cons]
    exact ih (f acc b)
      (fun acc' b' hb' => hstep acc' b' (List.mem_cons_of_mem b hb'))
      (hstep acc b (List.mem_cons_self b bs) hacc)

theorem entryIn_stops_foldl (route : Route) (trip : Trip) :
    ∀ (stops : List StopTime) (st : StopTime)
      (acc : List (String × List ScheduleEntry)), st ∈ stops →
    entryIn (stops.foldl (fun acc stop =>
        pushEntry stop.stopId (schedEntryOf route trip stop) acc) acc)
      st.stopId (schedEntryOf route trip st) := by
  intro stops
  induction stops with
  | nil => intro st acc h; cases h
  | cons s ss ih =>
    intro st acc h
    simp only [List.foldl_cons]
    rcases List.mem_cons.mp h with heq | h'
    · subst heq
      exact foldl_pres (fun m => entryIn m st.stopId (schedEntryOf route trip st))
        _ ss _ (fun acc' b _ hq => entryIn_push_mono _ _ hq)
        (entryIn_push_self acc st.stopId (schedEntryOf route trip st))
    · exact ih st _ h'

theorem entryIn_trips_foldl (route : Route) :
    ∀ (trips : List Trip) (trip : Trip) (st : StopTime)
      (acc : List (String × List ScheduleEntry)),
    trip ∈ trips → st ∈ trip.stops →
    entryIn (trips.foldl (fun acc trip =>
        trip.stops.foldl (fun acc stop =>
          pushEntry stop.stopId (schedEntryOf route trip stop) acc) acc) acc)
      st.stopId (schedEntryOf route trip st) := by
  intro trips
  induction trips with
  | nil => intro trip st acc h; cases h
  | cons tr trs ih =>
    intro trip st acc h hst
    simp only [List.foldl_cons]
    rcases List.mem_cons.mp h with heq | h'
    · subst heq
      exact foldl_pres
        (fun m => entryIn m st.stopId (schedEntryOf route trip st)) _ trs _
        (fun acc' b _ hq =>
          foldl_pres (fun m => entryIn m st.stopId (schedEntryOf route trip st))
            _ b.stops _ (fun acc'' c _ hq' => entryIn_push_mono _ _ hq') hq)
        (entryIn_stops_foldl route trip trip.stops st acc hst)
    · exact ih trip st _ h' hst

/-- The step applied per schedule row, named for reuse in the proofs. -/
theorem entryIn_build (schedule : List (String × List Trip))
    (routes : List Route) (rid : String) (trips : List Trip) (route : Route)
    (trip : Trip) (st : StopTime)
    (hmem : (rid, trips) ∈ schedule)
    (hfind : routes.find? (fun r => r.id == rid) = some route)
    (htrip : trip ∈ trips) (hst : st ∈ trip.stops) :
    entryIn (buildStopSchedules schedule routes) st.stopId
      (schedEntryOf route trip st) := by
  unfold buildStopSchedules
  revert hmem
  generalize hacc : ([] : List (String × List ScheduleEntry)) = acc
  clear hacc
  induction schedule generalizing acc with
  | nil => intro h; cases h
  | cons row rows ih =>
    intro hmem
    simp only [List.foldl_cons]
    rcases List.mem_cons.mp hmem with heq | h'
    · subst heq
      refine foldl_pres
        (fun m => entryIn m st.stopId (schedEntryOf route trip st))
        _ rows _ ?_ ?_
      · intro acc' b _ hq
        cases routes.find? (fun r => r.id == b.1) with
        | none => exact hq
        | some route' =>
          exact foldl_pres
            (fun m => entryIn m st.stopId (schedEntryOf route trip st))
            _ b.2 _ (fun acc'' tr _ hq' =>
              foldl_pres
                (fun m => entryIn m st.stopId (schedEntryOf route trip st))
                _ tr.stops _ (fun a s _ hq'' => entryIn_push_mono _ _ hq'')
                hq') hq
      · simp only [hfind]
        exact entryIn_trips_foldl route trips trip st acc htrip hst
    · exact ih _ h'

theorem lookup_map_sort (k : String) :
    ∀ (m : List (String × List ScheduleEntry)),
    List.lookup k (m.map (fun kl => (kl.1, kl.2.mergeSort entryLe)))
      = (List.lookup k m).map (fun l => l.mergeSort entryLe) := by
  intro m
  induction m with
  | nil => rfl
  | cons kl rest ih =>
    obtain ⟨k0, l0⟩ := kl
    by_cases h : k = k0
    · subst h
      simp only [List.map_cons]
      rw [lookup_cons_self, lookup_cons_self]
      rfl
    · simp only [List.map_cons]
      rw [lookup_cons_ne h, lookup_cons_ne h, ih]

theorem entryLe_trans (a b c : ScheduleEntry) :
    entryLe a b = true → entryLe b c = true → entryLe a c = true := by
  simp only [entryLe, decide_eq_true_eq]
  omega

theorem entryLe_total (a b : ScheduleEntry) :
    (entryLe a b || entryLe b a) = true := by
  simp only [entryLe, Bool.or_eq_true, decide_eq_true_eq]
  omega

/-- All entries accumulated by the build have parseable times when every
departure string in the schedule parses. -/
theorem build_times_valid (schedule : List (String × List Trip))
    (routes : List Route)
    (hvalid : ∀ rt ∈ schedule, ∀ trip ∈ rt.2, ∀ st ∈ trip.stops,
      (timeToSeconds st.departure).isSome = true) :
    ∀ kl ∈ buildStopSchedules schedule routes, ∀ e ∈ kl.2,
      e.time.isSome = true := by
  unfold buildStopSchedules
  have hpush : ∀ (m : List (String × List ScheduleEntry)) (k : String)
      (e : ScheduleEntry),
      (∀ kl ∈ m, ∀ e' ∈ kl.2, e'.time.isSome = true) →
      e.time.isSome = true →
      ∀ kl ∈ pushEntry k e m, ∀ e' ∈ kl.2, e'.time.isSome = true := by
    intro m k e
    induction m with
    | nil =>
      intro _ he kl hkl e' he'
      simp [pushEntry] at hkl
      subst hkl
      simp at he'
      subst he'
      exact he
    | cons kl0 rest ih =>
      obtain ⟨k'', l⟩ := kl0
      intro hm he kl hkl e' he'
      by_cases h : k'' = k
      · subst h
        simp only [pushEntry, eq_self_iff_true, if_true] at hkl
        rcases List.mem_cons.mp hkl with heq | hrest
        · subst heq
          rcases List.mem_append.mp he' with h1 | h1
          · exact hm (k'', l) (List.mem_cons_self _ _) e' h1
          · simp at h1
            subst h1
            exact he
        · exact hm kl (List.mem_cons_of_mem _ hrest) e' he'
      · simp only [pushEntry, if_neg h] at hkl
        rcases List.mem_cons.mp hkl with heq | hrest
        · subst heq
          exact hm (k'', l) (List.mem_cons_self _ _) e' he'
        · exact ih (fun kl' hkl' => hm kl' (List.mem_cons_of_mem _ hkl'))
            he kl hrest e' he'
  refine foldl_pres
    (fun m => ∀ kl ∈ m, ∀ e ∈ kl.2, e.time.isSome = true) _ schedule []
    ?_ (by intro kl h; cases h)
  intro acc row hrow hq
  cases hfind : routes.find? (fun r => r.id == row.1) with
  | none => exact hq
  | some route =>
    refine foldl_pres
      (fun m => ∀ kl ∈ m, ∀ e ∈ kl.2, e.time.isSome = true) _ row.2 acc
      ?_ hq
    intro acc' tr htr hq'
    refine foldl_pres
      (fun m => ∀ kl ∈ m, ∀ e ∈ kl.2, e.time.isSome = true) _ tr.stops acc'
      ?_ hq'
    intro acc'' s hs hq''
    exact hpush acc'' s.stopId (schedEntryOf route tr s) hq''
      (hvalid row hrow tr htr s hs)

/-- C2: after the build-once index is constructed, every stop-time of every
resolvable route's trip contributes an entry to its stop's list carrying the
departure time in seconds, the owning route, the trip id, the service id and
the headsign; and every stop's resulting list is sorted ascending by
departure time (all stored times being parseable under the validity
hypothesis). -/
theorem claimC2 (schedule : List (String × List Trip)) (routes : List Route)
    (hvalid : ∀ rt ∈ schedule, ∀ trip ∈ rt.2, ∀ st ∈ trip.stops,
      (timeToSeconds st.departure).isSome = true) :
    (∀ rt ∈ schedule, ∀ route,
      routes.find? (fun r => r.id == rt.1) = some route →
      ∀ trip ∈ rt.2, ∀ st ∈ trip.stops,
      ∃ l, List.lookup st.stopId (precalculateStopSchedules schedule routes)
          = some l ∧
        ∃ e ∈ l, e.time = timeToSeconds st.departure ∧ e.route = route ∧
          e.tripId = trip.tripId ∧ e.serviceId = trip.serviceId ∧
          e.headsign = trip.headsign) ∧
    (∀ kl ∈ precalculateStopSchedules schedule routes,
      (∀ e ∈ kl.2, e.time.isSome = true) ∧
      kl.2.Pairwise (fun a b => a.time.getD 0 ≤ b.time.getD 0)) := by
  constructor
  · intro rt hrt route hfind trip htrip st hst
    obtain ⟨rid, trips⟩ := rt
    have hin : entryIn (buildStopSchedules schedule routes) st.stopId
        (schedEntryOf route trip st) :=
      entryIn_build schedule routes rid trips route trip st hrt hfind htrip hst
    rcases hin with ⟨l, hl, he⟩
    refine ⟨l.mergeSort entryLe, ?_, ?_⟩
    · unfold precalculateStopSchedules
      rw [lookup_map_sort, hl]
      rfl
    · exact ⟨schedEntryOf route trip st, List.mem_mergeSort.mpr he,
        rfl, rfl, rfl, rfl, rfl⟩
  · intro kl hkl
    unfold precalculateStopSchedules at hkl
    rcases List.mem_map.mp hkl with ⟨kl0, hkl0, heq⟩
    subst heq
    constructor
    · intro e he
      exact build_times_valid schedule routes hvalid kl0 hkl0 e
        (List.mem_mergeSort.mp he)
    · have hs := List.sorted_mergeSort entryLe_trans entryLe_total kl0.2
      exact hs.imp (by
        intro a b hab
        simpa [entryLe] using hab)

def c2route : Route := ⟨"r1", "R1", "Route One", "#FF3B30", "#ffffff"⟩

def c2trip : Trip :=
  ⟨"t1", "svc1", "sh1", "City",
    [⟨"A", "08:00:00", "08:00:00"⟩, ⟨"B", "08:10:00", "08:10:00"⟩]⟩

theorem claimC2_witness :
    ∃ l, List.lookup "A"
        (precalculateStopSchedules [("r1", [c2trip])] [c2route]) = some l ∧
      ∃ e ∈ l, e.time = timeToSeconds "08:00:00" ∧ e.route = c2route ∧
        e.tripId = "t1" ∧ e.serviceId = "svc1" ∧ e.headsign = "City" :=
  (claimC2 [("r1", [c2trip])] [c2route]
      (by intro rt hrt trip htrip st hst; fin_cases hrt <;> fin_cases htrip <;>
        fin_cases hst <;> decide)).1
    ("r1", [c2trip]) (List.mem_singleton_self _) c2route (by decide)
    c2trip (List.mem_singleton_self _) ⟨"A", "08:00:00", "08:00:00"⟩
    (by decide)

end MyBas
